import Mathlib

/-!
Shallow embedding of the vibe-vibe local runtime server
(`runtime/server.ts`, given as `src/unnamed/part_002`) together with the
two bundled experiences (`src/unnamed/part_000`, pixel canvas, and
`src/unnamed/part_001`, counter), for checking the natural-language
specification against the code.

Modelling conventions:
* JS `Record<string, any>` values are modelled by the inductive `Value`
  (numbers as `Int`: only integral numbers occur in the claims) and
  records by association lists `Record := List (String × Value)`.
* JS `Map` is modelled by an insertion-ordered association list with
  lookup / set / delete helpers (`jsMapGet`, `jsMapSet`, `jsMapDelete`).
* The object spread `\x7b ...current, ...updates \x7d` is modelled by
  `jsSpread`, which preserves lookup semantics (updates win, keys absent
  from `updates` keep their `current` value); the exact key ordering of
  JS objects is not modelled.
* `Date.now()` values are passed in explicitly as `Nat` arguments; the
  physical fact that successive `Date.now()` calls are non-decreasing
  becomes a hypothesis where a theorem needs it.
* WebSocket delivery is not modelled; a route returns the list of
  messages it hands to `broadcastToRoom` (and, for the socket join, the
  direct reply).  Express responses are modelled by a status plus payload.
* Tool handlers are externally supplied code (the Experience).  A handler
  is modelled as a function from its context and validated input to a
  `HandlerRun`: the list of `setState` calls it made, the list of
  `setMemory` calls it made, and either a returned output or a thrown
  error message.  The server applies `setState` eagerly (last write
  wins) and `setMemory` as a shallow merge, exactly as the `ctx` object
  built at `part_002` lines 243-259 does; writes made before a throw
  persist, as in the source.
-/

namespace Vibe

/-- JSON-like values, the `any` of the TypeScript source. -/
inductive Value where
  | vnull
  | vnum (n : Int)
  | vstr (s : String)
  | vbool (b : Bool)
  | varr (xs : List Value)
  | vobj (fields : List (String × Value))

/-- A JS object / `Record<string, any>`. -/
abbrev Record := List (String × Value)

/-- Lookup of a key in a record (first binding wins, as JS objects have
unique keys). -/
def recGet : Record → String → Option Value
  | [], _ => none
  | (k', v) :: tl, k => if k' = k then some v else recGet tl k

/-- Models the JS object spread `\x7b ...current, ...updates \x7d`:
for every key, the value from `updates` if present, otherwise the value
from `current`.  Key ordering of the resulting JS object is not modelled;
lookup semantics is exact (see `recGet_jsSpread`). -/
def jsSpread (current updates : Record) : Record :=
  current.filter (fun p => (recGet updates p.1).isNone) ++ updates

/-- `obj[key] = v` on a (unique-key) record: replace in place or append. -/
def recSet : Record → String → Value → Record
  | [], k, v => [(k, v)]
  | (k', v') :: tl, k, v =>
    if k' = k then (k, v) :: tl else (k', v') :: recSet tl k v

/-- `Map.prototype.get`. -/
def jsMapGet {β : Type} : List (String × β) → String → Option β
  | [], _ => none
  | (k', v) :: tl, k => if k' = k then some v else jsMapGet tl k

/-- `Map.prototype.set`: overwrite in place, or append a new entry. -/
def jsMapSet {β : Type} : List (String × β) → String → β → List (String × β)
  | [], k, v => [(k, v)]
  | (k', v') :: tl, k, v =>
    if k' = k then (k, v) :: tl else (k', v') :: jsMapSet tl k v

/-- `Map.prototype.delete`. -/
def jsMapDelete {β : Type} : List (String × β) → String → List (String × β)
  | [], _ => []
  | (k', v) :: tl, k => if k' = k then tl else (k', v) :: jsMapDelete tl k

/-- `Array.from(m.keys())` of an insertion-ordered map. -/
def jsMapKeys {β : Type} (m : List (String × β)) : List String :=
  m.map Prod.fst

/-- `arr.slice(-n)` for `n > 0`: the at most `n` last elements. -/
def jsSliceLast {α : Type} (n : Nat) (l : List α) : List α :=
  l.drop (l.length - n)

/-- `s.split("-")[0]`: the segment of `s` before its first dash
(the whole string when there is no dash). -/
def jsSplitFirst (s : String) : String :=
  (s.data.takeWhile (fun c => c ≠ '-')).asString

/-- `opt || d` for JS strings: `undefined` and the empty string are
falsy. -/
def jsOrDefault (o : Option String) (d : String) : String :=
  match o with
  | some s => if s = "" then d else s
  | none => d

/-- Participant kind, the `"human" | "ai"` of the source. -/
inductive ActorType where
  | human
  | ai
  deriving DecidableEq, Repr

/-- The string the source interpolates for an actor type. -/
def ActorType.str : ActorType → String
  | .human => "human"
  | .ai => "ai"

/-- Participant metadata (`part_002` line 35). -/
structure Participant where
  type : ActorType
  joinedAt : Nat
  deriving Repr

/-- `interface ToolEvent` (`part_002` lines 20-29). -/
structure ToolEvent where
  id : String
  ts : Nat
  actorId : String
  owner : Option String
  tool : String
  input : Value
  output : Option Value
  error : Option String

/-- `interface Room` (`part_002` lines 31-39).  The `wsConnections` set
is not modelled (socket delivery is outside the claims); broadcasts are
returned by each route as a message list instead. -/
structure Room where
  roomId : String
  experienceId : String
  sharedState : Record
  participants : List (String × Participant)
  events : List ToolEvent
  actorCounters : List (String × Nat)

/-- The context handed to a tool handler (`part_002` lines 243-259),
with the two effect closures factored out into the `HandlerRun` record. -/
structure HandlerCtx where
  roomId : String
  actorId : String
  owner : String
  state : Record
  timestamp : Nat
  memory : Record

/-- The observable behaviour of one handler execution: every argument it
passed to `ctx.setState`, every argument it passed to `ctx.setMemory`
(in call order), and either its return value or the message of the
exception it threw. -/
structure HandlerRun where
  stateWrites : List Record
  memWrites : List Record
  result : Except String Value

/-- One entry of the Experience tool table: name, description, optional
input validator (`input_schema?.parse`, throwing modelled as `Except`),
and the handler. -/
structure Tool where
  name : String
  description : String
  validate : Option (Value → Except String Value)
  handler : HandlerCtx → Value → HandlerRun

/-- The loaded Experience: manifest id plus ordered tool table. -/
structure Experience where
  id : String
  tools : List Tool

/-- `assignActorId` (`part_002` lines 56-62): bump the room-scoped
counter for `username-type` and build `username-type-ordinal`. -/
def assignActorId (room : Room) (username : String) (type : ActorType) :
    Room × String :=
  let pfx := username ++ "-" ++ type.str
  let current := (jsMapGet room.actorCounters pfx).getD 0
  let next := current + 1
  ({ room with actorCounters := jsMapSet room.actorCounters pfx next },
   pfx ++ "-" ++ Nat.repr next)

/-- Messages the server sends over the push channel. -/
inductive ServerMsg where
  | presenceUpdate (participants : List String)
  | sharedStateUpdate (roomId : String) (state : Record) (event : ToolEvent)
      (changedBy : String) (tool : String)
  | joined (roomId : String) (actorId : String) (sharedState : Record)
      (participants : List String) (events : List ToolEvent)
  | experienceUpdated

/-- Express response of the tool route: `res.json(\x7b output \x7d)` or
`res.status(code).json(\x7b error \x7d)`. -/
inductive ToolResponse where
  | ok (output : Value)
  | err (status : Nat) (error : String)

/-- Process-wide `agentMemory` map (`part_002` line 44). -/
abbrev MemStore := List (String × Record)

/-- Result of one `POST /rooms/:roomId/tools/:toolName` request against a
found room and a loaded experience: updated room, updated agent memory,
messages passed to `broadcastToRoom`, and the HTTP response. -/
structure InvokeResult where
  room : Room
  mem : MemStore
  broadcasts : List ServerMsg
  response : ToolResponse

/-- Applies the `setMemory` effect closure (`part_002` lines 255-258)
once: shallow-merge `updates` into the current value under `memoryKey`. -/
def applySetMemory (mem : MemStore) (memoryKey : String) (updates : Record) :
    MemStore :=
  jsMapSet mem memoryKey (jsSpread ((jsMapGet mem memoryKey).getD []) updates)

/-- The agent-memory key of an invocation (`part_002` line 244):
`(experience id):(actor id)`. -/
def memoryKeyOf (room : Room) (actorId : String) : String :=
  room.experienceId ++ ":" ++ actorId

/-- The handler context built at `part_002` lines 245-259 (the snapshot
of `sharedState` and of the agent memory, the owner default
`actorId.split("-")[0]`, and the timestamp). -/
def invokeCtx (room : Room) (mem : MemStore) (actorId : String)
    (owner : Option String) (tCtx : Nat) : HandlerCtx :=
  { roomId := room.roomId, actorId := actorId,
    owner := jsOrDefault owner (jsSplitFirst actorId),
    state := room.sharedState, timestamp := tCtx,
    memory := (jsMapGet mem (memoryKeyOf room actorId)).getD [] }

/-- The event id `Date.now() + "-" + actorId + "-" + random suffix`. -/
def eventIdOf (tEvt : Nat) (actorId rand : String) : String :=
  Nat.repr tEvt ++ "-" ++ actorId ++ "-" ++ rand

/-- The success event (`part_002` lines 265-273): validated input, the
handler output, and the ctx owner. -/
def successEvent (tEvt : Nat) (actorId rand ownr toolName : String)
    (validatedInput output : Value) : ToolEvent :=
  { id := eventIdOf tEvt actorId rand, ts := tEvt, actorId := actorId,
    owner := some ownr, tool := toolName, input := validatedInput,
    output := some output, error := none }

/-- The failure event of the catch branch (`part_002` lines 294-301):
the raw request input, no owner, the error message. -/
def failureEvent (tEvt : Nat) (actorId rand toolName : String)
    (input : Value) (errorMsg : String) : ToolEvent :=
  { id := eventIdOf tEvt actorId rand, ts := tEvt, actorId := actorId,
    owner := none, tool := toolName, input := input,
    output := none, error := some errorMsg }

/-- `input_schema?.parse` (`part_002` lines 238-241): validate when the
tool declares a schema, otherwise pass the raw input through. -/
def runValidate (tool : Tool) (input : Value) : Except String Value :=
  match tool.validate with
  | some parse => parse input
  | none => .ok input

/-- The tool-invocation route body after room and experience lookup
(`part_002` lines 226-304).  `tCtx` is the `Date.now()` sampled for
`ctx.timestamp` (line 253), `tEvt` the one sampled when the event record
is created (lines 266-267 / 295-296), `rand` the random id suffix.
Mirrors the source exactly: find tool, validate (the zod `parse` throw
lands in the catch), build ctx, run the handler (its `setState` calls
replace `sharedState` wholesale, last call winning; its `setMemory`
calls shallow-merge, and both persist even if the handler then throws),
then on success append the event with a 200-entry cap and broadcast,
and on any caught error append an uncapped failure event carrying the
raw request input and no owner, without broadcasting. -/
def invokeTool (room : Room) (experience : Experience) (mem : MemStore)
    (toolName actorId : String) (input : Value) (owner : Option String)
    (tCtx tEvt : Nat) (rand : String) : InvokeResult :=
  match experience.tools.find? (fun t => t.name = toolName) with
  | none =>
      { room := room, mem := mem, broadcasts := [],
        response := .err 404 ("Tool " ++ toolName ++ " not found") }
  | some tool =>
    match runValidate tool input with
    | .error errorMsg =>
        let event := failureEvent tEvt actorId rand toolName input errorMsg
        { room := { room with events := room.events ++ [event] },
          mem := mem, broadcasts := [], response := .err 400 errorMsg }
    | .ok validatedInput =>
        let ctx := invokeCtx room mem actorId owner tCtx
        let run := tool.handler ctx validatedInput
        let newState := (run.stateWrites.getLast?).getD room.sharedState
        let mem' := run.memWrites.foldl
          (fun m updates => applySetMemory m (memoryKeyOf room actorId) updates)
          mem
        match run.result with
        | .ok output =>
            let event := successEvent tEvt actorId rand ctx.owner toolName
              validatedInput output
            let pushed := room.events ++ [event]
            let events' :=
              if pushed.length > 200 then jsSliceLast 200 pushed else pushed
            { room := { room with sharedState := newState, events := events' },
              mem := mem',
              broadcasts :=
                [.sharedStateUpdate room.roomId newState event actorId toolName],
              response := .ok output }
        | .error errorMsg =>
            let event := failureEvent tEvt actorId rand toolName input errorMsg
            { room :=
                { room with
                  sharedState := newState
                  events := room.events ++ [event] },
              mem := mem', broadcasts := [], response := .err 400 errorMsg }

/-- The cursor query `getNewEvents` (`part_002` line 315): all events
with timestamp strictly greater than `since`, in insertion order. -/
def getNewEvents (room : Room) (since : Nat) : List ToolEvent :=
  room.events.filter (fun e => since < e.ts)

/-- Payload of the events route response (`part_002` lines 319-323). -/
structure EventsQueryResult where
  events : List ToolEvent
  sharedState : Record
  participants : List String

/-- The response payload assembled from the room as it is at one
instant. -/
def eventsPayload (room : Room) (since : Nat) : EventsQueryResult :=
  { events := getNewEvents room since,
    sharedState := room.sharedState,
    participants := jsMapKeys room.participants }

/-- The `setInterval` polling loop of the events route (`part_002`
lines 328-339), discretised: `roomAt k` is the room as observed at the
k-th 200 ms re-check (so elapsed time at tick `k` is `200 * k` ms, and
the code condition `Date.now() - start >= timeout` reads
`timeout ≤ 200 * k`).  Returns the tick at which the loop answered
together with the payload assembled at that tick. -/
def pollFrom (roomAt : Nat → Room) (since timeout k : Nat) :
    Nat × EventsQueryResult :=
  if 0 < (getNewEvents (roomAt k) since).length ∨ timeout ≤ 200 * k then
    (k, eventsPayload (roomAt k) since)
  else
    pollFrom roomAt since timeout (k + 1)
termination_by timeout - 200 * k
decreasing_by
  rename_i h
  push_neg at h
  omega

/-- `GET /rooms/:roomId/events` after room lookup (`part_002` lines
308-343).  `timeoutRaw` is the parsed `timeout` query parameter (`0`
when absent), clamped by `Math.min(…, 55000)`.  Tick `0` is the
immediate synchronous check; a result at tick `k ≥ 1` was produced by
the k-th 200 ms re-check of the polling loop. -/
def eventsRoute (roomAt : Nat → Room) (since timeoutRaw : Nat) :
    Nat × EventsQueryResult :=
  let timeout := min timeoutRaw 55000
  if 0 < (getNewEvents (roomAt 0) since).length ∨ timeout = 0 then
    (0, eventsPayload (roomAt 0) since)
  else
    pollFrom roomAt since timeout 1

/-- Response of `GET /rooms/:roomId` (`part_002` lines 168-178). -/
structure RoomSnapshot where
  roomId : String
  experienceId : String
  sharedState : Record
  participants : List String
  events : List ToolEvent

/-- `GET /rooms/:roomId` after room lookup: a read-only snapshot whose
event view is `room.events.slice(-50)`. -/
def getRoomRoute (room : Room) : RoomSnapshot :=
  { roomId := room.roomId, experienceId := room.experienceId,
    sharedState := room.sharedState,
    participants := jsMapKeys room.participants,
    events := jsSliceLast 50 room.events }

/-- Response of `POST /rooms/:roomId/join` (`part_002` lines 195-204);
the tool catalog and browser URL fields are outside the claims and not
modelled. -/
structure JoinResponse where
  roomId : String
  actorId : String
  experienceId : String
  sharedState : Record
  participants : List String
  events : List ToolEvent

/-- `POST /rooms/:roomId/join` after room lookup (`part_002` lines
181-205): body defaults `username = "user"`, `actorType = "human"`,
allocate an actor id, register the participant, broadcast presence, and
reply with the state and `events.slice(-20)`. -/
def joinRoute (room : Room) (username : Option String)
    (actorType : Option ActorType) (now : Nat) :
    Room × JoinResponse × List ServerMsg :=
  let uname := username.getD "user"
  let atype := actorType.getD .human
  let (room₁, actorId) := assignActorId room uname atype
  let room₂ :=
    { room₁ with
      participants :=
        jsMapSet room₁.participants actorId { type := atype, joinedAt := now } }
  (room₂,
   { roomId := room₂.roomId, actorId := actorId,
     experienceId := room₂.experienceId,
     sharedState := room₂.sharedState,
     participants := jsMapKeys room₂.participants,
     events := jsSliceLast 20 room₂.events },
   [.presenceUpdate (jsMapKeys room₂.participants)])

/-- `POST /rooms/:roomId/leave` after room lookup (`part_002` lines
208-218): remove the participant (counters untouched) and broadcast
presence. -/
def leaveRoute (room : Room) (actorId : String) :
    Room × List ServerMsg :=
  let room' :=
    { room with
      participants := jsMapDelete room.participants actorId }
  (room', [.presenceUpdate (jsMapKeys room'.participants)])

/-- The push-channel `join` message handler (`part_002` lines 411-437):
username defaults to `"viewer"` (`msg.username ||`), the participant is
always of kind human, the direct reply is a `joined` message carrying
`events.slice(-20)`, and a presence update is broadcast. -/
def wsJoinRoute (room : Room) (username : Option String) (now : Nat) :
    Room × String × ServerMsg × List ServerMsg :=
  let uname := jsOrDefault username "viewer"
  let (room₁, actorId) := assignActorId room uname .human
  let room₂ :=
    { room₁ with
      participants :=
        jsMapSet room₁.participants actorId { type := .human, joinedAt := now } }
  (room₂, actorId,
   .joined room₂.roomId actorId room₂.sharedState
     (jsMapKeys room₂.participants) (jsSliceLast 20 room₂.events),
   [.presenceUpdate (jsMapKeys room₂.participants)])

/-- `POST /memory` (`part_002` lines 359-365): falsy key is a 400,
otherwise shallow-merge `updates` into the stored value.  The returned
`Bool` is whether the request succeeded (`saved: true`). -/
def postMemoryRoute (mem : MemStore) (key : Option String)
    (updates : Record) : MemStore × Bool :=
  match key with
  | none => (mem, false)
  | some k =>
      if k = "" then (mem, false)
      else (jsMapSet mem k (jsSpread ((jsMapGet mem k).getD []) updates), true)

/-- `GET /memory` (`part_002` lines 353-357). -/
def getMemoryRoute (mem : MemStore) (key : Option String) : Record :=
  match key with
  | none => []
  | some k => if k = "" then [] else (jsMapGet mem k).getD []

/-- A fresh room as created by `POST /rooms` (`part_002` lines 148-165). -/
def freshRoom (roomId experienceId : String) : Room :=
  { roomId := roomId, experienceId := experienceId, sharedState := [],
    participants := [], events := [], actorCounters := [] }

/-! ### The bundled experiences

The counter experience of `part_001` and the pixel-canvas experience of
`part_000`. Zod validation (`schema.parse`) is embedded per schema; its
structured issue list is flattened to one message string naming the
failing field, which is all the claims observe of it. -/

/-- JS truthiness of a value. -/
def jsTruthy : Value → Bool
  | .vnull => false
  | .vnum n => n ≠ 0
  | .vstr s => s ≠ ""
  | .vbool b => b
  | .varr _ => true
  | .vobj _ => true

/-- Fields of a value that is an object (the handlers only reach this on
object-valued state fields). -/
def vObjFields : Value → Record
  | .vobj f => f
  | _ => []

/-- `state.key || \x7b\x7d` for an object-valued field. -/
def objOrEmpty (v : Option Value) : Record :=
  match v with
  | some (.vobj f) => f
  | _ => []

/-- `state.key || []` for an array-valued field. -/
def arrOrEmpty (v : Option Value) : List Value :=
  match v with
  | some (.varr xs) => xs
  | _ => []

/-- `state.count ?? 0` where the value, when present, is a number (the
only shape the counter handlers ever store). -/
def countOf (state : Record) : Int :=
  match recGet state "count" with
  | some (.vnum n) => n
  | _ => 0

/-- Integer field of a validated input object. -/
def intAt (r : Record) (k : String) : Int :=
  match recGet r k with
  | some (.vnum n) => n
  | _ => 0

/-- String field of a validated input object. -/
def strAt (r : Record) (k : String) : String :=
  match recGet r k with
  | some (.vstr s) => s
  | _ => ""

/-- JS number-to-string for the integers that occur here. -/
def intStr (n : Int) : String :=
  if n < 0 then "-" ++ Nat.repr n.natAbs else Nat.repr n.natAbs

/-- `z.object(\x7b\x7d).parse`: accepts any object, strips every key;
rejects non-objects. -/
def zEmptyObject (v : Value) : Except String Value :=
  match v with
  | .vobj _ => .ok (.vobj [])
  | _ => .error "Expected object, received something else"

/-- `z.number().int().min(lo).max(hi).parse` of one named field of an
object under validation. -/
def zNumInt (lo hi : Int) (fieldName : String) (v : Option Value) :
    Except String Int :=
  match v with
  | none => .error (fieldName ++ ": Required")
  | some (.vnum n) =>
      if n < lo then
        .error (fieldName ++ ": Number must be greater than or equal to "
          ++ intStr lo)
      else if hi < n then
        .error (fieldName ++ ": Number must be less than or equal to "
          ++ intStr hi)
      else .ok n
  | some _ => .error (fieldName ++ ": Expected number")

/-- A hex digit of the color regex character class. -/
def isHexDigitChar (c : Char) : Bool :=
  ('0' ≤ c && c ≤ '9') || ('a' ≤ c && c ≤ 'f') || ('A' ≤ c && c ≤ 'F')

/-- The regex `^#[0-9a-fA-F]\x7b6\x7d$`. -/
def isHexColor (s : String) : Bool :=
  match s.data with
  | '#' :: rest => rest.length = 6 && rest.all isHexDigitChar
  | _ => false

/-- `z.string().regex(hex color).parse` of one named field. -/
def zHexColor (fieldName : String) (v : Option Value) :
    Except String String :=
  match v with
  | none => .error (fieldName ++ ": Required")
  | some (.vstr s) =>
      if isHexColor s then .ok s else .error (fieldName ++ ": Invalid")
  | some _ => .error (fieldName ++ ": Expected string")

/-- The `counter.increment` tool (`part_001` lines 64-73). -/
def counterIncrementTool : Tool :=
  { name := "counter.increment",
    description := "Increment the counter by 1",
    validate := some zEmptyObject,
    handler := fun ctx _input =>
      let next := countOf ctx.state + 1
      { stateWrites := [jsSpread ctx.state [("count", .vnum next)]],
        memWrites := [],
        result := .ok (.vobj [("count", .vnum next)]) } }

/-- The `counter.decrement` tool (`part_001` lines 74-83). -/
def counterDecrementTool : Tool :=
  { name := "counter.decrement",
    description := "Decrement the counter by 1",
    validate := some zEmptyObject,
    handler := fun ctx _input =>
      let next := countOf ctx.state - 1
      { stateWrites := [jsSpread ctx.state [("count", .vnum next)]],
        memWrites := [],
        result := .ok (.vobj [("count", .vnum next)]) } }

/-- The `counter.reset` tool (`part_001` lines 84-92). -/
def counterResetTool : Tool :=
  { name := "counter.reset",
    description := "Reset the counter to zero",
    validate := some zEmptyObject,
    handler := fun ctx _input =>
      { stateWrites := [jsSpread ctx.state [("count", .vnum 0)]],
        memWrites := [],
        result := .ok (.vobj [("count", .vnum 0)]) } }

/-- The counter experience (`part_001` lines 95-105). -/
def counterExperience : Experience :=
  { id := "my-experience",
    tools := [counterIncrementTool, counterDecrementTool, counterResetTool] }

/-- The input schema of `pixel.place` (`part_000` lines 402-409):
`x` and `y` integers in `[0, 63]`, `color` a 7-character hex string. -/
def pixelPlaceValidate (v : Value) : Except String Value :=
  match v with
  | .vobj fields => do
      let x ← zNumInt 0 63 "x" (recGet fields "x")
      let y ← zNumInt 0 63 "y" (recGet fields "y")
      let color ← zHexColor "color" (recGet fields "color")
      pure (.vobj [("x", .vnum x), ("y", .vnum y), ("color", .vstr color)])
  | _ => .error "Expected object, received something else"

/-- The pixel key `x + "," + y`. -/
def pixelKey (x y : Int) : String :=
  intStr x ++ "," ++ intStr y

/-- The `pixel.place` tool (`part_000` lines 398-433). -/
def pixelPlaceTool : Tool :=
  { name := "pixel.place",
    description := "Place a colored pixel on the 64x64 canvas.",
    validate := some pixelPlaceValidate,
    handler := fun ctx input =>
      let fields := vObjFields input
      let x := intAt fields "x"
      let y := intAt fields "y"
      let color := strAt fields "color"
      let pixels := recSet (objOrEmpty (recGet ctx.state "pixels"))
        (pixelKey x y) (.vstr color)
      let placement : Value := .vobj
        [("x", .vnum x), ("y", .vnum y), ("color", .vstr color),
         ("actor", .vstr ctx.actorId), ("ts", .vnum ctx.timestamp)]
      let recent := (placement ::
        arrOrEmpty (recGet ctx.state "recentPlacements")).take 20
      { stateWrites := [jsSpread ctx.state
          [("pixels", .vobj pixels), ("recentPlacements", .varr recent),
           ("pixelCount", .vnum pixels.length)]],
        memWrites := [],
        result := .ok (.vobj
          [("placed", .vstr (pixelKey x y)), ("color", .vstr color),
           ("totalPixels", .vnum pixels.length)]) } }

/-- The input schema of `pixel.place_batch` (`part_000` lines 439-451):
an array of 1 to 50 valid placements. -/
def pixelPlaceBatchValidate (v : Value) : Except String Value :=
  match v with
  | .vobj fields =>
      match recGet fields "placements" with
      | none => .error "placements: Required"
      | some (.varr xs) =>
          if xs.length < 1 then
            .error "placements: Array must contain at least 1 element"
          else if 50 < xs.length then
            .error "placements: Array must contain at most 50 elements"
          else do
            let xs' ← xs.mapM (fun p =>
              match p with
              | .vobj pf => do
                  let x ← zNumInt 0 63 "placements.x" (recGet pf "x")
                  let y ← zNumInt 0 63 "placements.y" (recGet pf "y")
                  let c ← zHexColor "placements.color" (recGet pf "color")
                  pure (Value.vobj
                    [("x", .vnum x), ("y", .vnum y), ("color", .vstr c)])
              | _ => .error "placements: Expected object")
            pure (.vobj [("placements", .varr xs')])
      | some _ => .error "placements: Expected array"
  | _ => .error "Expected object, received something else"

/-- The `pixel.place_batch` tool (`part_000` lines 435-481). -/
def pixelPlaceBatchTool : Tool :=
  { name := "pixel.place_batch",
    description := "Place multiple pixels at once (up to 50).",
    validate := some pixelPlaceBatchValidate,
    handler := fun ctx input =>
      let placements := arrOrEmpty (recGet (vObjFields input) "placements")
      let pixels := placements.foldl (fun px p =>
        recSet px (pixelKey (intAt (vObjFields p) "x")
          (intAt (vObjFields p) "y"))
          (.vstr (strAt (vObjFields p) "color")))
        (objOrEmpty (recGet ctx.state "pixels"))
      let newRecent : List Value := placements.map (fun p => .vobj
        [("x", .vnum (intAt (vObjFields p) "x")),
         ("y", .vnum (intAt (vObjFields p) "y")),
         ("color", .vstr (strAt (vObjFields p) "color")),
         ("actor", .vstr ctx.actorId), ("ts", .vnum ctx.timestamp)])
      let recent := (newRecent ++
        arrOrEmpty (recGet ctx.state "recentPlacements")).take 20
      { stateWrites := [jsSpread ctx.state
          [("pixels", .vobj pixels), ("recentPlacements", .varr recent),
           ("pixelCount", .vnum pixels.length)]],
        memWrites := [],
        result := .ok (.vobj
          [("placed", .vnum placements.length),
           ("totalPixels", .vnum pixels.length)]) } }

/-- The inclusive integer range `a, a+1, …, b` of the JS `for` loops in
`pixel.get_region`. -/
def rangeInt (a b : Int) : List Int :=
  (List.range (b - a + 1).toNat).map (fun i => a + i)

/-- The input schema of `pixel.get_region` (`part_000` lines 487-492). -/
def pixelGetRegionValidate (v : Value) : Except String Value :=
  match v with
  | .vobj fields => do
      let x1 ← zNumInt 0 63 "x1" (recGet fields "x1")
      let y1 ← zNumInt 0 63 "y1" (recGet fields "y1")
      let x2 ← zNumInt 0 63 "x2" (recGet fields "x2")
      let y2 ← zNumInt 0 63 "y2" (recGet fields "y2")
      pure (.vobj [("x1", .vnum x1), ("y1", .vnum y1),
                   ("x2", .vnum x2), ("y2", .vnum y2)])
  | _ => .error "Expected object, received something else"

/-- The `pixel.get_region` tool (`part_000` lines 483-508), a read-only
tool: no `setState` call. -/
def pixelGetRegionTool : Tool :=
  { name := "pixel.get_region",
    description := "Read all pixels in a rectangular region.",
    validate := some pixelGetRegionValidate,
    handler := fun ctx input =>
      let fields := vObjFields input
      let x1 := intAt fields "x1"
      let y1 := intAt fields "y1"
      let x2 := intAt fields "x2"
      let y2 := intAt fields "y2"
      let pixels := objOrEmpty (recGet ctx.state "pixels")
      let region := (rangeInt x1 x2).foldl (fun reg x =>
        (rangeInt y1 y2).foldl (fun reg y =>
          match recGet pixels (pixelKey x y) with
          | some c => if jsTruthy c then recSet reg (pixelKey x y) c else reg
          | none => reg) reg) []
      { stateWrites := [], memWrites := [],
        result := .ok (.vobj
          [("region", .vobj region),
           ("filledCount", .vnum region.length),
           ("totalInRegion", .vnum ((x2 - x1 + 1) * (y2 - y1 + 1)))]) } }

/-- The `pixel.clear` tool (`part_000` lines 510-518). -/
def pixelClearTool : Tool :=
  { name := "pixel.clear",
    description := "Clear the entire canvas, removing all pixels.",
    validate := some zEmptyObject,
    handler := fun ctx _input =>
      { stateWrites := [jsSpread ctx.state
          [("pixels", .vobj []), ("recentPlacements", .varr []),
           ("pixelCount", .vnum 0)]],
        memWrites := [],
        result := .ok (.vobj [("cleared", .vbool true)]) } }

/-- The pixel-canvas experience (`part_000` lines 523-604). -/
def pixelExperience : Experience :=
  { id := "pixel-canvas",
    tools := [pixelPlaceTool, pixelPlaceBatchTool, pixelGetRegionTool,
              pixelClearTool] }

/-! ### Concurrency model of the tool route

The tool route (`part_002` lines 221-305) takes no per-room lock.  Its
execution on the Node event loop decomposes into atomic blocks separated
by the points where control returns to the event loop:

* block one runs synchronously from route entry through validation, the
  construction of `ctx` — which fixes the state snapshot, `state:
  room.sharedState`, line 249 — and into the handler body up to the
  handler body first internal `await` (or, if the body never awaits,
  through its `setState` calls and return);
* each handler resumption after an internal `await` is a further atomic
  block; the final one performs `setState`, whose closure (lines
  250-252) assigns `room.sharedState := newState`, where `newState` was
  computed from the snapshot `ctx.state`.  The route continuation
  (event append, broadcast, response) runs in microtasks that complete
  before the event loop turns to another request.

A mutating invocation is therefore summarised by the function taking its
snapshot to the state it passes to `setState`, plus whether the handler
body suspends between the snapshot and that `setState` call (the spec
itself notes handlers may suspend on I/O).  The event log plays no role
in the lost-update question and is omitted here. -/

/-- One mutating invocation of the concurrency model. -/
structure AsyncInvocation where
  compute : Record → Record
  suspends : Bool

/-- Progress of one in-flight invocation: not yet scheduled, suspended
at the await of its handler while holding the snapshot its `ctx` was
built with, or committed. -/
inductive InvPhase where
  | notStarted
  | suspended (snapshot : Record)
  | committed

/-- Configuration of two invocations racing on one room. -/
structure TwoInvState where
  shared : Record
  phase1 : InvPhase
  phase2 : InvPhase

/-- One atomic block of one invocation, as described above: starting an
invocation either runs it to completion (no suspension) or parks it at
its await, holding the snapshot taken when `ctx` was built; resuming a
suspended invocation applies `setState (compute snapshot)`. -/
def stepThread (inv : AsyncInvocation) (shared : Record) :
    InvPhase → Record × InvPhase
  | .notStarted =>
      if inv.suspends then (shared, .suspended shared)
      else (inv.compute shared, .committed)
  | .suspended snap => (inv.compute snap, .committed)
  | .committed => (shared, .committed)

/-- Advance one of the two invocations (`false` picks the first). -/
def stepSystem (i1 i2 : AsyncInvocation) (st : TwoInvState) (pick : Bool) :
    TwoInvState :=
  if pick then
    let r := stepThread i2 st.shared st.phase2
    { shared := r.1, phase1 := st.phase1, phase2 := r.2 }
  else
    let r := stepThread i1 st.shared st.phase1
    { shared := r.1, phase1 := r.2, phase2 := st.phase2 }

/-- Run a schedule (the order in which the event loop grants the atomic
blocks). -/
def runSchedule (i1 i2 : AsyncInvocation) (st : TwoInvState)
    : List Bool → TwoInvState
  | [] => st
  | pick :: rest => runSchedule i1 i2 (stepSystem i1 i2 st pick) rest

/-- Both invocations start unscheduled on state `s0`. -/
def initTwoInv (s0 : Record) : TwoInvState :=
  { shared := s0, phase1 := .notStarted, phase2 := .notStarted }

/-- Whether a phase is committed. -/
def InvPhase.isCommitted : InvPhase → Bool
  | .committed => true
  | _ => false

/-- The two final states a serial execution of the two invocations can
produce. -/
def serialOutcomes (i1 i2 : AsyncInvocation) (s0 : Record) : List Record :=
  [i2.compute (i1.compute s0), i1.compute (i2.compute s0)]

/-- A counter-increment invocation mirroring the `counter.increment`
handler body (`part_001` lines 68-72) with an internal await between
reading `ctx.state` and calling `ctx.setState`. -/
def incInvocation : AsyncInvocation :=
  { compute := fun s => jsSpread s [("count", .vnum (countOf s + 1))],
    suspends := true }

/-- A counter-increment invocation whose handler body never suspends,
exactly `part_001` lines 68-72. -/
def incInvocationAtomic : AsyncInvocation :=
  { compute := fun s => jsSpread s [("count", .vnum (countOf s + 1))],
    suspends := false }

/-! ### Join/leave sequences for the identity allocator -/

/-- The operations that touch a room's participant set and counters. -/
inductive RoomOp where
  | joinHttp (username : Option String) (actorType : Option ActorType)
  | wsJoin (username : Option String)
  | leave (actorId : String)

/-- Apply one operation; returns the ids it allocated (one for a join,
none for a leave). -/
def applyRoomOp (room : Room) : RoomOp → Room × List String
  | .joinHttp u a =>
      let r := joinRoute room u a 0
      (r.1, [r.2.1.actorId])
  | .wsJoin u =>
      let r := wsJoinRoute room u 0
      (r.1, [r.2.1])
  | .leave actorId => ((leaveRoute room actorId).1, [])

/-- Apply a sequence of operations, collecting every allocated id in
order. -/
def runRoomOps (room : Room) : List RoomOp → Room × List String
  | [] => (room, [])
  | op :: rest =>
      let r1 := applyRoomOp room op
      let r2 := runRoomOps r1.1 rest
      (r2.1, r1.2 ++ r2.2)

/-- The counter key (`username-type`) an operation allocates under,
after the defaults the routes apply; `none` for a leave. -/
def opPfx : RoomOp → Option String
  | .joinHttp u a => some ((u.getD "user") ++ "-" ++ (a.getD .human).str)
  | .wsJoin u => some (jsOrDefault u "viewer" ++ "-" ++ ActorType.human.str)
  | .leave _ => none

/-- The id string `assignActorId` builds from a counter key and the
ordinal it allocated. -/
def encodeId (pfx : String) (n : Nat) : String :=
  pfx ++ "-" ++ Nat.repr n

/-- The (counter key, ordinal) trace of a run, derived by unfolding what
`assignActorId` does to `actorCounters` at each join. -/
def allocTrace (counters : List (String × Nat)) : List RoomOp →
    List (String × Nat)
  | [] => []
  | op :: rest =>
      match opPfx op with
      | none => allocTrace counters rest
      | some p =>
          let n := (jsMapGet counters p).getD 0 + 1
          (p, n) :: allocTrace (jsMapSet counters p n) rest

/-- The ordinals a trace allocated under one counter key, in order. -/
def ordsFor (tr : List (String × Nat)) (p : String) : List Nat :=
  (tr.filter (fun pn => pn.1 = p)).map (fun pn => pn.2)

/-! ### Iterated invocations (for the log-cap scenario) -/

/-- Run `n` successful `counter.increment` invocations by
`alice-human-1`, the k-th carrying `Date.now() = i + k`. -/
def applyIncrements (room : Room) (i : Nat) : Nat → Room
  | 0 => room
  | n + 1 =>
      applyIncrements
        ((invokeTool room counterExperience [] "counter.increment"
          "alice-human-1" (.vobj []) none i i "r").room)
        (i + 1) n

/-- Event list carried by a `joined` reply. -/
def ServerMsg.joinedEvents : ServerMsg → List ToolEvent
  | .joined _ _ _ _ evs => evs
  | _ => []

/-- A tool whose handler always throws, exercising the catch branch of
the route; tools are externally supplied, so any handler behaviour is a
legal input to the gate. -/
def throwingTool : Tool :=
  { name := "boom.tool",
    description := "a handler that throws",
    validate := none,
    handler := fun _ _ =>
      { stateWrites := [], memWrites := [], result := .error "boom" } }

/-- A one-tool experience around `throwingTool`. -/
def throwingExperience : Experience :=
  { id := "boom", tools := [throwingTool] }

/-- A room whose log carries one event at timestamp `ts` (for the
watcher scenarios). -/
def roomWithOneEvent (ts : Nat) : Room :=
  { freshRoom "room1" "e" with
      events := [{ id := "e1", ts := ts, actorId := "sam-human-1",
                   owner := none, tool := "counter.increment",
                   input := .vobj [], output := some (.vobj []),
                   error := none }] }

/-! ### Decimal-representation helpers (proof support, not source) -/

/-- The numeric value a decimal digit character denotes. -/
def digitVal (c : Char) : Nat := c.toNat - '0'.toNat

/-- Read a most-significant-first digit list back as a number. -/
def parseDigits (cs : List Char) : Nat :=
  cs.foldl (fun a c => a * 10 + digitVal c) 0

/-! ## Theorems -/

/-! ### Record and map lemmas -/

theorem recGet_append (a b : Record) (k : String) :
    recGet (a ++ b) k =
      match recGet a k with
      | some v => some v
      | none => recGet b k := by
  induction a with
  | nil => simp [recGet]
  | cons p tl ih =>
      obtain ⟨k', v⟩ := p
      by_cases h : k' = k <;> simp [recGet, h, ih]

theorem recGet_filter_isNone (c u : Record) (k : String) :
    recGet (c.filter (fun p => (recGet u p.1).isNone)) k =
      if (recGet u k).isNone then recGet c k else none := by
  induction c with
  | nil => simp [recGet]
  | cons p tl ih =>
      obtain ⟨k', v⟩ := p
      by_cases hk : k' = k
      · subst hk
        by_cases hu : (recGet u k').isNone <;> simp [recGet, hu, ih]
      · by_cases hu : (recGet u k').isNone <;> simp [recGet, hk, hu, ih]

/-- Lookup semantics of the object spread: a key present in `updates`
takes its updated value, a key absent from `updates` keeps its value
from `current`. -/
theorem recGet_jsSpread (current updates : Record) (k : String) :
    recGet (jsSpread current updates) k =
      match recGet updates k with
      | some v => some v
      | none => recGet current k := by
  unfold jsSpread
  rw [recGet_append, recGet_filter_isNone]
  cases h : recGet updates k
  · cases recGet current k <;> simp [h]
  · simp [h]

theorem jsMapGet_set_self {β : Type} (m : List (String × β)) (k : String)
    (v : β) : jsMapGet (jsMapSet m k v) k = some v := by
  induction m with
  | nil => simp [jsMapSet, jsMapGet]
  | cons p tl ih =>
      obtain ⟨k', v'⟩ := p
      by_cases h : k' = k <;> simp [jsMapSet, jsMapGet, h, ih]

theorem jsMapGet_set_ne {β : Type} (m : List (String × β)) (k k' : String)
    (v : β) (h : k' ≠ k) : jsMapGet (jsMapSet m k v) k' = jsMapGet m k' := by
  induction m with
  | nil => simp [jsMapSet, jsMapGet, Ne.symm h]
  | cons p tl ih =>
      obtain ⟨k'', v''⟩ := p
      by_cases h2 : k'' = k
      · subst h2
        simp [jsMapSet, jsMapGet, Ne.symm h]
      · by_cases h3 : k'' = k' <;>
          simp [jsMapSet, jsMapGet, h2, h3, h, ih]

/-! ### slice(-n) lemmas -/

theorem jsSliceLast_of_le {α : Type} (n : Nat) (l : List α)
    (h : l.length ≤ n) : jsSliceLast n l = l := by
  simp [jsSliceLast, Nat.sub_eq_zero_of_le h]

theorem jsSliceLast_length {α : Type} (n : Nat) (l : List α) :
    (jsSliceLast n l).length = min n l.length := by
  simp [jsSliceLast]
  omega

theorem jsSliceLast_suffix {α : Type} (n : Nat) (l : List α) :
    (jsSliceLast n l).IsSuffix l :=
  List.drop_suffix _ _

/-- The success-path append with cap (`push` then conditional
`slice(-200)`) always equals `slice(-200)` of the pushed list. -/
theorem capPush_eq (l : List ToolEvent) (e : ToolEvent) :
    (if (l ++ [e]).length > 200 then jsSliceLast 200 (l ++ [e])
     else (l ++ [e])) = jsSliceLast 200 (l ++ [e]) := by
  split
  · rfl
  · exact (jsSliceLast_of_le _ _ (by omega)).symm

/-! ### Unfolding the three outcomes of the tool route -/

theorem invokeTool_invalid_eq (room : Room) (experience : Experience)
    (mem : MemStore) (toolName actorId : String) (input : Value)
    (owner : Option String) (tCtx tEvt : Nat) (rand : String) (tool : Tool)
    (msg : String)
    (hfind : experience.tools.find? (fun t => t.name = toolName) = some tool)
    (hval : runValidate tool input = .error msg) :
    invokeTool room experience mem toolName actorId input owner tCtx tEvt
        rand =
      { room := { room with events :=
          room.events ++ [failureEvent tEvt actorId rand toolName input msg] },
        mem := mem, broadcasts := [], response := .err 400 msg } := by
  simp [invokeTool, hfind, hval]

theorem invokeTool_success_eq (room : Room) (experience : Experience)
    (mem : MemStore) (toolName actorId : String) (input : Value)
    (owner : Option String) (tCtx tEvt : Nat) (rand : String) (tool : Tool)
    (vi out : Value) (run : HandlerRun)
    (hfind : experience.tools.find? (fun t => t.name = toolName) = some tool)
    (hval : runValidate tool input = .ok vi)
    (hrun : tool.handler (invokeCtx room mem actorId owner tCtx) vi = run)
    (hok : run.result = .ok out) :
    invokeTool room experience mem toolName actorId input owner tCtx tEvt
        rand =
      { room :=
          { room with
            sharedState := (run.stateWrites.getLast?).getD room.sharedState
            events := jsSliceLast 200 (room.events ++
              [successEvent tEvt actorId rand
                (invokeCtx room mem actorId owner tCtx).owner toolName vi
                out]) },
        mem := run.memWrites.foldl
          (fun m updates => applySetMemory m (memoryKeyOf room actorId)
            updates) mem,
        broadcasts := [.sharedStateUpdate room.roomId
          ((run.stateWrites.getLast?).getD room.sharedState)
          (successEvent tEvt actorId rand
            (invokeCtx room mem actorId owner tCtx).owner toolName vi out)
          actorId toolName],
        response := .ok out } := by
  simp only [invokeTool, hfind, hval, hrun, hok, capPush_eq]

theorem invokeTool_handler_error_eq (room : Room) (experience : Experience)
    (mem : MemStore) (toolName actorId : String) (input : Value)
    (owner : Option String) (tCtx tEvt : Nat) (rand : String) (tool : Tool)
    (vi : Value) (run : HandlerRun) (msg : String)
    (hfind : experience.tools.find? (fun t => t.name = toolName) = some tool)
    (hval : runValidate tool input = .ok vi)
    (hrun : tool.handler (invokeCtx room mem actorId owner tCtx) vi = run)
    (herr : run.result = .error msg) :
    invokeTool room experience mem toolName actorId input owner tCtx tEvt
        rand =
      { room :=
          { room with
            sharedState := (run.stateWrites.getLast?).getD room.sharedState
            events := room.events ++
              [failureEvent tEvt actorId rand toolName input msg] },
        mem := run.memWrites.foldl
          (fun m updates => applySetMemory m (memoryKeyOf room actorId)
            updates) mem,
        broadcasts := [], response := .err 400 msg } := by
  simp only [invokeTool, hfind, hval, hrun, herr]

theorem invokeTool_notFound_eq (room : Room) (experience : Experience)
    (mem : MemStore) (toolName actorId : String) (input : Value)
    (owner : Option String) (tCtx tEvt : Nat) (rand : String)
    (hfind : experience.tools.find? (fun t => t.name = toolName) = none) :
    invokeTool room experience mem toolName actorId input owner tCtx tEvt
        rand =
      { room := room, mem := mem, broadcasts := [],
        response := .err 404 ("Tool " ++ toolName ++ " not found") } := by
  simp only [invokeTool, hfind]

/-! ### C3 — schema-validation failure -/

/-- C3: an invocation whose raw input fails the tool's declared schema
returns an invalid-input failure (HTTP 400 with the validation message)
to the caller, performs no mutation of `sharedState` (or of anything
else in the room except the log, or of the agent memory), appends
exactly one failure event, and broadcasts nothing. -/
theorem toolGate_invalid_input_no_mutation (room : Room)
    (experience : Experience) (mem : MemStore) (toolName actorId : String)
    (input : Value) (owner : Option String) (tCtx tEvt : Nat) (rand : String)
    (tool : Tool) (parse : Value → Except String Value) (msg : String)
    (hfind : experience.tools.find? (fun t => t.name = toolName) = some tool)
    (hschema : tool.validate = some parse)
    (hfail : parse input = .error msg) :
    (invokeTool room experience mem toolName actorId input owner tCtx tEvt
        rand).response = .err 400 msg ∧
    (invokeTool room experience mem toolName actorId input owner tCtx tEvt
        rand).room.sharedState = room.sharedState ∧
    (invokeTool room experience mem toolName actorId input owner tCtx tEvt
        rand).room.events =
      room.events ++ [failureEvent tEvt actorId rand toolName input msg] ∧
    (invokeTool room experience mem toolName actorId input owner tCtx tEvt
        rand).mem = mem ∧
    (invokeTool room experience mem toolName actorId input owner tCtx tEvt
        rand).broadcasts = [] := by
  have hval : runValidate tool input = .error msg := by
    simp [runValidate, hschema, hfail]
  rw [invokeTool_invalid_eq room experience mem toolName actorId input owner
    tCtx tEvt rand tool msg hfind hval]
  exact ⟨rfl, rfl, rfl, rfl, rfl⟩

/-- Witness for C3: the spec scenario — `pixel.place` invoked with
`x = 70` where the schema bounds x to 0..63. -/
theorem toolGate_invalid_input_no_mutation_witness :
    (invokeTool (freshRoom "room1" "pixel-canvas") pixelExperience []
        "pixel.place" "sam-human-1"
        (.vobj [("x", .vnum 70), ("y", .vnum 0), ("color", .vstr "#ff0000")])
        none 5 6 "r").response =
      .err 400 "x: Number must be less than or equal to 63" ∧
    (invokeTool (freshRoom "room1" "pixel-canvas") pixelExperience []
        "pixel.place" "sam-human-1"
        (.vobj [("x", .vnum 70), ("y", .vnum 0), ("color", .vstr "#ff0000")])
        none 5 6 "r").room.sharedState =
      (freshRoom "room1" "pixel-canvas").sharedState ∧
    (invokeTool (freshRoom "room1" "pixel-canvas") pixelExperience []
        "pixel.place" "sam-human-1"
        (.vobj [("x", .vnum 70), ("y", .vnum 0), ("color", .vstr "#ff0000")])
        none 5 6 "r").room.events =
      (freshRoom "room1" "pixel-canvas").events ++
        [failureEvent 6 "sam-human-1" "r" "pixel.place"
          (.vobj [("x", .vnum 70), ("y", .vnum 0), ("color", .vstr "#ff0000")])
          "x: Number must be less than or equal to 63"] ∧
    (invokeTool (freshRoom "room1" "pixel-canvas") pixelExperience []
        "pixel.place" "sam-human-1"
        (.vobj [("x", .vnum 70), ("y", .vnum 0), ("color", .vstr "#ff0000")])
        none 5 6 "r").mem = [] ∧
    (invokeTool (freshRoom "room1" "pixel-canvas") pixelExperience []
        "pixel.place" "sam-human-1"
        (.vobj [("x", .vnum 70), ("y", .vnum 0), ("color", .vstr "#ff0000")])
        none 5 6 "r").broadcasts = [] :=
  toolGate_invalid_input_no_mutation (freshRoom "room1" "pixel-canvas")
    pixelExperience [] "pixel.place" "sam-human-1"
    (.vobj [("x", .vnum 70), ("y", .vnum 0), ("color", .vstr "#ff0000")])
    none 5 6 "r" pixelPlaceTool pixelPlaceValidate
    "x: Number must be less than or equal to 63" rfl rfl rfl

/-! ### C8 — handler exception -/

/-- C8: when the handler throws, exactly one failure event carrying the
error message in its error field is appended, no broadcast is sent, and
the failure is reported to the caller as a 400. -/
theorem toolGate_handler_failure_semantics (room : Room)
    (experience : Experience) (mem : MemStore) (toolName actorId : String)
    (input : Value) (owner : Option String) (tCtx tEvt : Nat) (rand : String)
    (tool : Tool) (vi : Value) (run : HandlerRun) (msg : String)
    (hfind : experience.tools.find? (fun t => t.name = toolName) = some tool)
    (hval : runValidate tool input = .ok vi)
    (hrun : tool.handler (invokeCtx room mem actorId owner tCtx) vi = run)
    (herr : run.result = .error msg) :
    (invokeTool room experience mem toolName actorId input owner tCtx tEvt
        rand).room.events =
      room.events ++ [failureEvent tEvt actorId rand toolName input msg] ∧
    (failureEvent tEvt actorId rand toolName input msg).error = some msg ∧
    (invokeTool room experience mem toolName actorId input owner tCtx tEvt
        rand).broadcasts = [] ∧
    (invokeTool room experience mem toolName actorId input owner tCtx tEvt
        rand).response = .err 400 msg := by
  rw [invokeTool_handler_error_eq room experience mem toolName actorId input
    owner tCtx tEvt rand tool vi run msg hfind hval hrun herr]
  exact ⟨rfl, rfl, rfl, rfl⟩

/-- Witness for C8: a throwing handler on a fresh room. -/
theorem toolGate_handler_failure_semantics_witness :
    (invokeTool (freshRoom "room1" "boom") throwingExperience []
        "boom.tool" "sam-human-1" (.vobj []) none 5 6 "r").room.events =
      (freshRoom "room1" "boom").events ++
        [failureEvent 6 "sam-human-1" "r" "boom.tool" (.vobj []) "boom"] ∧
    (failureEvent 6 "sam-human-1" "r" "boom.tool" (.vobj []) "boom").error =
      some "boom" ∧
    (invokeTool (freshRoom "room1" "boom") throwingExperience []
        "boom.tool" "sam-human-1" (.vobj []) none 5 6 "r").broadcasts = [] ∧
    (invokeTool (freshRoom "room1" "boom") throwingExperience []
        "boom.tool" "sam-human-1" (.vobj []) none 5 6 "r").response =
      .err 400 "boom" :=
  toolGate_handler_failure_semantics (freshRoom "room1" "boom")
    throwingExperience [] "boom.tool" "sam-human-1" (.vobj []) none 5 6 "r"
    throwingTool (.vobj [])
    { stateWrites := [], memWrites := [], result := .error "boom" }
    "boom" rfl rfl rfl rfl

/-! ### C4 — handler success -/

/-- C4: on handler success the room state is replaced wholesale by the
last value passed to `setState` (unchanged when the handler made no
`setState` call, since `getLast?` of the empty write list defaults to
the old state), one success event carrying the handler return value as
output is appended (the log cap applying), a broadcast carrying the new
state, the event, the acting actor and the tool name is sent, and the
output is returned; and in particular three sequential
`counter.increment` invocations on a fresh room yield state count 3, an
event log of length 3, and outputs count 1, 2, 3 in order. -/
theorem toolGate_success_semantics :
    (∀ (room : Room) (experience : Experience) (mem : MemStore)
        (toolName actorId : String) (input : Value) (owner : Option String)
        (tCtx tEvt : Nat) (rand : String) (tool : Tool) (vi out : Value)
        (run : HandlerRun),
        experience.tools.find? (fun t => t.name = toolName) = some tool →
        runValidate tool input = .ok vi →
        tool.handler (invokeCtx room mem actorId owner tCtx) vi = run →
        run.result = .ok out →
        invokeTool room experience mem toolName actorId input owner tCtx
            tEvt rand =
          { room :=
              { room with
                sharedState :=
                  (run.stateWrites.getLast?).getD room.sharedState
                events := jsSliceLast 200 (room.events ++
                  [successEvent tEvt actorId rand
                    (invokeCtx room mem actorId owner tCtx).owner toolName
                    vi out]) },
            mem := run.memWrites.foldl
              (fun m updates =>
                applySetMemory m (memoryKeyOf room actorId) updates) mem,
            broadcasts := [.sharedStateUpdate room.roomId
              ((run.stateWrites.getLast?).getD room.sharedState)
              (successEvent tEvt actorId rand
                (invokeCtx room mem actorId owner tCtx).owner toolName vi
                out) actorId toolName],
            response := .ok out }) ∧
    (applyIncrements (freshRoom "room1" "my-experience") 1 3).sharedState =
      [("count", .vnum 3)] ∧
    (applyIncrements (freshRoom "room1" "my-experience") 1 3).events.length
      = 3 ∧
    (applyIncrements (freshRoom "room1" "my-experience") 1 3).events.map
        (fun e => e.output) =
      [some (.vobj [("count", .vnum 1)]), some (.vobj [("count", .vnum 2)]),
       some (.vobj [("count", .vnum 3)])] := by
  refine ⟨?_, rfl, rfl, rfl⟩
  intro room experience mem toolName actorId input owner tCtx tEvt rand tool
    vi out run hfind hval hrun hok
  exact invokeTool_success_eq room experience mem toolName actorId input
    owner tCtx tEvt rand tool vi out run hfind hval hrun hok

/-- Witness for C4: the general part applied to the first
`counter.increment` invocation of the scenario. -/
theorem toolGate_success_semantics_witness :
    invokeTool (freshRoom "room1" "my-experience") counterExperience []
        "counter.increment" "alice-human-1" (.vobj []) none 1 1 "r" =
      { room :=
          { freshRoom "room1" "my-experience" with
            sharedState := [("count", .vnum 1)]
            events := jsSliceLast 200
              ((freshRoom "room1" "my-experience").events ++
                [successEvent 1 "alice-human-1" "r" "alice" "counter.increment"
                  (.vobj []) (.vobj [("count", .vnum 1)])]) },
        mem := [],
        broadcasts := [.sharedStateUpdate "room1" [("count", .vnum 1)]
          (successEvent 1 "alice-human-1" "r" "alice" "counter.increment"
            (.vobj []) (.vobj [("count", .vnum 1)]))
          "alice-human-1" "counter.increment"],
        response := .ok (.vobj [("count", .vnum 1)]) } :=
  toolGate_success_semantics.1 (freshRoom "room1" "my-experience")
    counterExperience [] "counter.increment" "alice-human-1" (.vobj []) none
    1 1 "r" counterIncrementTool (.vobj []) (.vobj [("count", .vnum 1)])
    { stateWrites := [[("count", .vnum 1)]], memWrites := [],
      result := .ok (.vobj [("count", .vnum 1)]) }
    rfl rfl rfl rfl

/-! ### C9 — memory merges, state replaces -/

/-- C9: agent-memory updates — both the `setMemory` handler effect and
the merge-memory endpoint — are shallow-merged into the existing value
(keys absent from the update are preserved, keys present take the
updated value), the handler effect landing under the key
`(experience id):(actorId)`; whereas the `setState` effect replaces
`sharedState` wholesale with no merge. -/
theorem memory_shallow_merge_state_replace :
    (∀ (current updates : Record) (k : String),
        recGet updates k = none →
        recGet (jsSpread current updates) k = recGet current k) ∧
    (∀ (current updates : Record) (k : String) (v : Value),
        recGet updates k = some v →
        recGet (jsSpread current updates) k = some v) ∧
    (∀ (mem : MemStore) (memoryKey : String) (updates : Record),
        jsMapGet (applySetMemory mem memoryKey updates) memoryKey =
          some (jsSpread ((jsMapGet mem memoryKey).getD []) updates)) ∧
    (∀ (mem : MemStore) (key : String) (updates : Record), key ≠ "" →
        (postMemoryRoute mem (some key) updates).1 =
          jsMapSet mem key
            (jsSpread ((jsMapGet mem key).getD []) updates)) ∧
    (∀ (room : Room) (experience : Experience) (mem : MemStore)
        (toolName actorId : String) (input : Value) (owner : Option String)
        (tCtx tEvt : Nat) (rand : String) (tool : Tool) (vi out : Value)
        (run : HandlerRun) (w u : Record),
        experience.tools.find? (fun t => t.name = toolName) = some tool →
        runValidate tool input = .ok vi →
        tool.handler (invokeCtx room mem actorId owner tCtx) vi = run →
        run.result = .ok out →
        run.stateWrites = [w] →
        run.memWrites = [u] →
        (invokeTool room experience mem toolName actorId input owner tCtx
            tEvt rand).room.sharedState = w ∧
        (invokeTool room experience mem toolName actorId input owner tCtx
            tEvt rand).mem =
          applySetMemory mem (memoryKeyOf room actorId) u ∧
        memoryKeyOf room actorId = room.experienceId ++ ":" ++ actorId) := by
  refine ⟨?_, ?_, ?_, ?_, ?_⟩
  · intro current updates k h
    rw [recGet_jsSpread, h]
  · intro current updates k v h
    rw [recGet_jsSpread, h]
  · intro mem memoryKey updates
    exact jsMapGet_set_self mem memoryKey _
  · intro mem key updates hkey
    simp [postMemoryRoute, hkey]
  · intro room experience mem toolName actorId input owner tCtx tEvt rand
      tool vi out run w u hfind hval hrun hok hw hu
    rw [invokeTool_success_eq room experience mem toolName actorId input
      owner tCtx tEvt rand tool vi out run hfind hval hrun hok]
    refine ⟨?_, ?_, rfl⟩
    · simp [hw]
    · simp [hu]

/-- Witness for C9: a key absent from the update is preserved by the
merge, and the key the update carries is overwritten. -/
theorem memory_shallow_merge_state_replace_witness :
    recGet (jsSpread [("a", .vnum 1), ("b", .vnum 7)] [("b", .vnum 2)]) "a" =
      recGet [("a", Value.vnum 1), ("b", .vnum 7)] "a" ∧
    recGet (jsSpread [("a", .vnum 1), ("b", .vnum 7)] [("b", .vnum 2)]) "b" =
      some (.vnum 2) :=
  ⟨memory_shallow_merge_state_replace.1
      [("a", .vnum 1), ("b", .vnum 7)] [("b", .vnum 2)] "a" rfl,
   memory_shallow_merge_state_replace.2.1
      [("a", .vnum 1), ("b", .vnum 7)] [("b", .vnum 2)] "b" (.vnum 2) rfl⟩

/-! ### C10 — snapshot truncation -/

/-- C10: the read-only snapshot operations truncate the event view
without modifying the log: the room-snapshot endpoint returns at most
the 50 most recent events, and both the pull join endpoint and the
push-channel join reply return at most the 20 most recent events,
each view being a suffix of (hence the most recent entries of) the
untouched log. -/
theorem snapshot_event_truncation :
    (∀ room : Room,
        (getRoomRoute room).events = jsSliceLast 50 room.events ∧
        (getRoomRoute room).events.length ≤ 50 ∧
        (getRoomRoute room).events.IsSuffix room.events) ∧
    (∀ (room : Room) (u : Option String) (a : Option ActorType) (now : Nat),
        (joinRoute room u a now).1.events = room.events ∧
        (joinRoute room u a now).2.1.events = jsSliceLast 20 room.events ∧
        (joinRoute room u a now).2.1.events.length ≤ 20 ∧
        (joinRoute room u a now).2.1.events.IsSuffix room.events) ∧
    (∀ (room : Room) (u : Option String) (now : Nat),
        (wsJoinRoute room u now).1.events = room.events ∧
        (wsJoinRoute room u now).2.2.1.joinedEvents =
          jsSliceLast 20 room.events ∧
        (wsJoinRoute room u now).2.2.1.joinedEvents.length ≤ 20 ∧
        (wsJoinRoute room u now).2.2.1.joinedEvents.IsSuffix room.events) := by
  refine ⟨?_, ?_, ?_⟩
  · intro room
    refine ⟨rfl, ?_, jsSliceLast_suffix 50 room.events⟩
    show (jsSliceLast 50 room.events).length ≤ 50
    rw [jsSliceLast_length]
    omega
  · intro room u a now
    refine ⟨rfl, rfl, ?_, ?_⟩
    · show (jsSliceLast 20 room.events).length ≤ 20
      rw [jsSliceLast_length]
      omega
    · exact jsSliceLast_suffix 20 room.events
  · intro room u now
    refine ⟨rfl, rfl, ?_, ?_⟩
    · show (jsSliceLast 20 room.events).length ≤ 20
      rw [jsSliceLast_length]
      omega
    · exact jsSliceLast_suffix 20 room.events

/-! ### C2 — the 200-entry log cap -/

set_option maxRecDepth 4000 in
/-- Counterexample for C2: the cap is not enforced on the failure path.
After 201 successful `counter.increment` invocations the log holds the
capped 200 entries, but one further invocation whose input fails the
schema (the catch branch, `part_002` lines 292-304, appends without
trimming) leaves the log at 201 entries — more than 200 entries after a
tool invocation, refuting the claim. -/
theorem eventLog_failure_append_exceeds_cap :
    (applyIncrements (freshRoom "room1" "my-experience") 1 201).events.length
      = 200 ∧
    (invokeTool (applyIncrements (freshRoom "room1" "my-experience") 1 201)
        counterExperience [] "counter.increment" "alice-human-1" (.vnum 5)
        none 300 300 "x").room.events.length = 201 :=
  ⟨rfl, rfl⟩

set_option maxRecDepth 4000 in
/-- C2 as amended: each successful invocation appends exactly one event
and trims the log to its 200 most recent entries (oldest evicted
first), and a `since = 0` query returns the whole retained log (all
timestamps being positive) — hence, after more than 200 successful
invocations, exactly the 200 most recent events; but a failed
invocation appends its failure event without trimming, so the log
exceeds 200 entries until the next successful invocation trims it. -/
theorem eventLog_cap_success_only :
    (∀ (room : Room) (experience : Experience) (mem : MemStore)
        (toolName actorId : String) (input : Value) (owner : Option String)
        (tCtx tEvt : Nat) (rand : String) (tool : Tool) (vi out : Value)
        (run : HandlerRun),
        experience.tools.find? (fun t => t.name = toolName) = some tool →
        runValidate tool input = .ok vi →
        tool.handler (invokeCtx room mem actorId owner tCtx) vi = run →
        run.result = .ok out →
        (invokeTool room experience mem toolName actorId input owner tCtx
            tEvt rand).room.events =
          jsSliceLast 200 (room.events ++
            [successEvent tEvt actorId rand
              (invokeCtx room mem actorId owner tCtx).owner toolName vi
              out]) ∧
        (invokeTool room experience mem toolName actorId input owner tCtx
            tEvt rand).room.events.length =
          min (room.events.length + 1) 200) ∧
    (∀ (room : Room) (experience : Experience) (mem : MemStore)
        (toolName actorId : String) (input : Value) (owner : Option String)
        (tCtx tEvt : Nat) (rand : String) (tool : Tool) (msg : String),
        experience.tools.find? (fun t => t.name = toolName) = some tool →
        runValidate tool input = .error msg →
        (invokeTool room experience mem toolName actorId input owner tCtx
            tEvt rand).room.events =
          room.events ++
            [failureEvent tEvt actorId rand toolName input msg]) ∧
    (∀ (room : Room) (experience : Experience) (mem : MemStore)
        (toolName actorId : String) (input : Value) (owner : Option String)
        (tCtx tEvt : Nat) (rand : String) (tool : Tool) (vi : Value)
        (run : HandlerRun) (msg : String),
        experience.tools.find? (fun t => t.name = toolName) = some tool →
        runValidate tool input = .ok vi →
        tool.handler (invokeCtx room mem actorId owner tCtx) vi = run →
        run.result = .error msg →
        (invokeTool room experience mem toolName actorId input owner tCtx
            tEvt rand).room.events =
          room.events ++
            [failureEvent tEvt actorId rand toolName input msg]) ∧
    (∀ room : Room, (∀ e ∈ room.events, 0 < e.ts) →
        getNewEvents room 0 = room.events) := by
  refine ⟨?_, ?_, ?_, ?_⟩
  · intro room experience mem toolName actorId input owner tCtx tEvt rand
      tool vi out run hfind hval hrun hok
    rw [invokeTool_success_eq room experience mem toolName actorId input
      owner tCtx tEvt rand tool vi out run hfind hval hrun hok]
    refine ⟨rfl, ?_⟩
    show (jsSliceLast 200 _).length = _
    rw [jsSliceLast_length]
    simp
    omega
  · intro room experience mem toolName actorId input owner tCtx tEvt rand
      tool msg hfind hval
    rw [invokeTool_invalid_eq room experience mem toolName actorId input
      owner tCtx tEvt rand tool msg hfind hval]
  · intro room experience mem toolName actorId input owner tCtx tEvt rand
      tool vi run msg hfind hval hrun herr
    rw [invokeTool_handler_error_eq room experience mem toolName actorId
      input owner tCtx tEvt rand tool vi run msg hfind hval hrun herr]
  · intro room h
    unfold getNewEvents
    rw [List.filter_eq_self]
    intro e he
    simpa using h e he

/-- Witness for C2 as amended: the first increment on a fresh room, a
schema-failing invocation on a fresh room, and a cursor query at 0. -/
theorem eventLog_cap_success_only_witness :
    (invokeTool (freshRoom "room1" "my-experience") counterExperience []
        "counter.increment" "alice-human-1" (.vobj [])
        none 1 1 "r").room.events =
      jsSliceLast 200 ((freshRoom "room1" "my-experience").events ++
        [successEvent 1 "alice-human-1" "r" "alice" "counter.increment"
          (.vobj []) (.vobj [("count", .vnum 1)])]) ∧
    getNewEvents (roomWithOneEvent 5) 0 = (roomWithOneEvent 5).events :=
  ⟨(eventLog_cap_success_only.1 (freshRoom "room1" "my-experience")
      counterExperience [] "counter.increment" "alice-human-1" (.vobj [])
      none 1 1 "r" counterIncrementTool (.vobj [])
      (.vobj [("count", .vnum 1)])
      { stateWrites := [[("count", .vnum 1)]], memWrites := [],
        result := .ok (.vobj [("count", .vnum 1)]) }
      rfl rfl rfl rfl).1,
   eventLog_cap_success_only.2.2.2 (roomWithOneEvent 5)
     (by intro e he; simp [roomWithOneEvent] at he; simp [he])⟩

/-! ### C7 — cursor query and timestamp order -/

/-- Whatever the outcome of an invocation, the new log is the old one,
or the old one with one event at timestamp `tEvt` appended, possibly
trimmed to its 200-entry suffix. -/
theorem invokeTool_events_shape (room : Room) (experience : Experience)
    (mem : MemStore) (toolName actorId : String) (input : Value)
    (owner : Option String) (tCtx tEvt : Nat) (rand : String) :
    (invokeTool room experience mem toolName actorId input owner tCtx tEvt
        rand).room.events = room.events ∨
    (∃ ev : ToolEvent, ev.ts = tEvt ∧
      ((invokeTool room experience mem toolName actorId input owner tCtx
          tEvt rand).room.events = room.events ++ [ev] ∨
       (invokeTool room experience mem toolName actorId input owner tCtx
          tEvt rand).room.events = jsSliceLast 200 (room.events ++ [ev]))) := by
  cases hfind : experience.tools.find? (fun t => t.name = toolName) with
  | none =>
      left
      rw [invokeTool_notFound_eq room experience mem toolName actorId input
        owner tCtx tEvt rand hfind]
  | some tool =>
      cases hval : runValidate tool input with
      | error msg =>
          right
          refine ⟨failureEvent tEvt actorId rand toolName input msg, rfl,
            .inl ?_⟩
          rw [invokeTool_invalid_eq room experience mem toolName actorId
            input owner tCtx tEvt rand tool msg hfind hval]
      | ok vi =>
          cases hres : (tool.handler (invokeCtx room mem actorId owner tCtx)
              vi).result with
          | ok out =>
              right
              refine ⟨successEvent tEvt actorId rand
                (invokeCtx room mem actorId owner tCtx).owner toolName vi out,
                rfl, .inr ?_⟩
              rw [invokeTool_success_eq room experience mem toolName actorId
                input owner tCtx tEvt rand tool vi out _ hfind hval rfl hres]
          | error msg =>
              right
              refine ⟨failureEvent tEvt actorId rand toolName input msg, rfl,
                .inl ?_⟩
              rw [invokeTool_handler_error_eq room experience mem toolName
                actorId input owner tCtx tEvt rand tool vi _ msg hfind hval
                rfl hres]

/-- C7: the cursor query returns exactly the events with timestamp
strictly greater than the cursor, in insertion order (a sublist of the
log); events whose timestamp equals the cursor are excluded; and event
timestamps are monotonically non-decreasing in insertion order — an
invocation whose event-creation `Date.now()` is at least every
timestamp already in the log (which physically always holds) preserves
sortedness of the log, whatever the outcome. -/
theorem eventLog_cursor_strict_order :
    (∀ (room : Room) (since : Nat),
        (getNewEvents room since).Sublist room.events) ∧
    (∀ (room : Room) (since : Nat) (e : ToolEvent),
        e ∈ getNewEvents room since ↔ (e ∈ room.events ∧ since < e.ts)) ∧
    (∀ (room : Room) (since : Nat) (e : ToolEvent),
        e.ts = since → e ∉ getNewEvents room since) ∧
    (∀ (room : Room) (experience : Experience) (mem : MemStore)
        (toolName actorId : String) (input : Value) (owner : Option String)
        (tCtx tEvt : Nat) (rand : String),
        room.events.Pairwise (fun a b => a.ts ≤ b.ts) →
        (∀ e ∈ room.events, e.ts ≤ tEvt) →
        ((invokeTool room experience mem toolName actorId input owner tCtx
            tEvt rand).room.events).Pairwise (fun a b => a.ts ≤ b.ts)) := by
  refine ⟨?_, ?_, ?_, ?_⟩
  · intro room since
    exact List.filter_sublist room.events
  · intro room since e
    simp [getNewEvents]
  · intro room since e hts hmem
    simp [getNewEvents] at hmem
    omega
  · intro room experience mem toolName actorId input owner tCtx tEvt rand
      hsorted hbound
    have hpush : ∀ ev : ToolEvent, ev.ts = tEvt →
        (room.events ++ [ev]).Pairwise (fun a b => a.ts ≤ b.ts) := by
      intro ev hts
      rw [List.pairwise_append]
      refine ⟨hsorted, List.pairwise_singleton _ _, ?_⟩
      intro a ha b hb
      simp at hb
      subst hb
      rw [hts]
      exact hbound a ha
    rcases invokeTool_events_shape room experience mem toolName actorId
      input owner tCtx tEvt rand with h | ⟨ev, hts, h | h⟩
    · rw [h]; exact hsorted
    · rw [h]; exact hpush ev hts
    · rw [h]
      exact List.Pairwise.sublist (List.drop_sublist _ _) (hpush ev hts)

/-- Witness for C7: the sortedness preservation applied to a one-event
room and a later invocation. -/
theorem eventLog_cursor_strict_order_witness :
    ((invokeTool (roomWithOneEvent 5) counterExperience []
        "counter.increment" "alice-human-1" (.vobj [])
        none 7 7 "r").room.events).Pairwise (fun a b => a.ts ≤ b.ts) :=
  eventLog_cursor_strict_order.2.2.2 (roomWithOneEvent 5) counterExperience
    [] "counter.increment" "alice-human-1" (.vobj []) none 7 7 "r"
    (by simp [roomWithOneEvent])
    (by intro e he; simp [roomWithOneEvent] at he; simp [he])

/-! ### C1 — serialization of concurrent invocations -/

theorem runSchedule_both_committed (i1 i2 : AsyncInvocation) (s : Record) :
    ∀ sched : List Bool,
      runSchedule i1 i2 ⟨s, .committed, .committed⟩ sched =
        ⟨s, .committed, .committed⟩
  | [] => rfl
  | pick :: rest => by
      cases pick <;>
        simpa [runSchedule, stepSystem, stepThread] using
          runSchedule_both_committed i1 i2 s rest

theorem runSchedule_second_pending (i1 i2 : AsyncInvocation)
    (h2 : i2.suspends = false) (s : Record) :
    ∀ sched : List Bool,
      (runSchedule i1 i2 ⟨s, .committed, .notStarted⟩
        sched).phase2.isCommitted = true →
      runSchedule i1 i2 ⟨s, .committed, .notStarted⟩ sched =
        ⟨i2.compute s, .committed, .committed⟩
  | [] => by
      intro h
      simp [runSchedule, InvPhase.isCommitted] at h
  | pick :: rest => by
      intro h
      cases pick with
      | false =>
          have e : stepSystem i1 i2 ⟨s, .committed, .notStarted⟩ false =
              ⟨s, .committed, .notStarted⟩ := by
            simp [stepSystem, stepThread]
          simp only [runSchedule, e] at h ⊢
          exact runSchedule_second_pending i1 i2 h2 s rest h
      | true =>
          have e : stepSystem i1 i2 ⟨s, .committed, .notStarted⟩ true =
              ⟨i2.compute s, .committed, .committed⟩ := by
            simp [stepSystem, stepThread, h2]
          simp only [runSchedule, e]
          exact runSchedule_both_committed i1 i2 _ rest

theorem runSchedule_first_pending (i1 i2 : AsyncInvocation)
    (h1 : i1.suspends = false) (s : Record) :
    ∀ sched : List Bool,
      (runSchedule i1 i2 ⟨s, .notStarted, .committed⟩
        sched).phase1.isCommitted = true →
      runSchedule i1 i2 ⟨s, .notStarted, .committed⟩ sched =
        ⟨i1.compute s, .committed, .committed⟩
  | [] => by
      intro h
      simp [runSchedule, InvPhase.isCommitted] at h
  | pick :: rest => by
      intro h
      cases pick with
      | true =>
          have e : stepSystem i1 i2 ⟨s, .notStarted, .committed⟩ true =
              ⟨s, .notStarted, .committed⟩ := by
            simp [stepSystem, stepThread]
          simp only [runSchedule, e] at h ⊢
          exact runSchedule_first_pending i1 i2 h1 s rest h
      | false =>
          have e : stepSystem i1 i2 ⟨s, .notStarted, .committed⟩ false =
              ⟨i1.compute s, .committed, .committed⟩ := by
            simp [stepSystem, stepThread, h1]
          simp only [runSchedule, e]
          exact runSchedule_both_committed i1 i2 _ rest

/-- Counterexample for C1: the route takes no per-room lock, so two
concurrent invocations whose handlers suspend between the `ctx`
snapshot and `setState` — two suspending counter increments here — can
both read the same pre-mutation snapshot (after schedule
`[false, true]` both are suspended holding the initial state), and the
completed run ends with count 1: the final state reflects only one of
the two increments and matches neither serial ordering, a lost update
the claim asserts impossible. -/
theorem toolGate_concurrent_lost_update :
    (runSchedule incInvocation incInvocation (initTwoInv [])
      [false, true]).phase1 = .suspended [] ∧
    (runSchedule incInvocation incInvocation (initTwoInv [])
      [false, true]).phase2 = .suspended [] ∧
    runSchedule incInvocation incInvocation (initTwoInv [])
        [false, true, false, true] =
      ⟨[("count", .vnum 1)], .committed, .committed⟩ ∧
    serialOutcomes incInvocation incInvocation [] =
      [[("count", .vnum 2)], [("count", .vnum 2)]] ∧
    [("count", Value.vnum 1)] ∉ serialOutcomes incInvocation incInvocation
      [] := by
  refine ⟨rfl, rfl, rfl, rfl, ?_⟩
  simp [serialOutcomes, incInvocation, jsSpread, countOf, recGet]

/-- C1 as amended: the server performs no per-room serialization — an
invocation's snapshot is taken when its request is processed, whether
or not another invocation is in flight.  Invocations whose handlers do
not suspend between snapshot and `setState` run atomically on the
single-threaded event loop, so any completed interleaving of two such
invocations yields a final state equal to one of the two serial
orderings (no lost update); but when a handler does suspend there, both
invocations can read the same pre-mutation snapshot and one update
overwrites the other (see the counterexample). -/
theorem toolGate_atomic_invocations_serialize (i1 i2 : AsyncInvocation)
    (s0 : Record) (sched : List Bool)
    (h1 : i1.suspends = false) (h2 : i2.suspends = false)
    (hc1 : (runSchedule i1 i2 (initTwoInv s0) sched).phase1.isCommitted =
      true)
    (hc2 : (runSchedule i1 i2 (initTwoInv s0) sched).phase2.isCommitted =
      true) :
    (runSchedule i1 i2 (initTwoInv s0) sched).shared ∈
      serialOutcomes i1 i2 s0 := by
  cases sched with
  | nil => simp [runSchedule, initTwoInv, InvPhase.isCommitted] at hc1
  | cons pick rest =>
      cases pick with
      | false =>
          have e : stepSystem i1 i2 (initTwoInv s0) false =
              ⟨i1.compute s0, .committed, .notStarted⟩ := by
            simp [stepSystem, stepThread, initTwoInv, h1]
          simp only [runSchedule, e] at hc2 ⊢
          rw [runSchedule_second_pending i1 i2 h2 (i1.compute s0) rest hc2]
          simp [serialOutcomes]
      | true =>
          have e : stepSystem i1 i2 (initTwoInv s0) true =
              ⟨i2.compute s0, .notStarted, .committed⟩ := by
            simp [stepSystem, stepThread, initTwoInv, h2]
          simp only [runSchedule, e] at hc1 ⊢
          rw [runSchedule_first_pending i1 i2 h1 (i2.compute s0) rest hc1]
          simp [serialOutcomes]

/-- Witness for C1 as amended: two non-suspending increments, scheduled
one after the other, end in a serial outcome. -/
theorem toolGate_atomic_invocations_serialize_witness :
    (runSchedule incInvocationAtomic incInvocationAtomic (initTwoInv [])
      [false, true]).shared ∈
      serialOutcomes incInvocationAtomic incInvocationAtomic [] :=
  toolGate_atomic_invocations_serialize incInvocationAtomic
    incInvocationAtomic [] [false, true] rfl rfl rfl rfl

/-! ### C6 — the long-poll watcher -/

/-- The polling loop, characterised: it answers at the first re-check
tick (at or after the entry tick) at which qualifying events exist or
the deadline has elapsed, with the payload assembled at that tick; all
strictly earlier ticks from the entry tick on saw no qualifying events
and an unexpired deadline. -/
theorem pollFrom_spec (roomAt : Nat → Room) (since timeout : Nat)
    (k : Nat) :
    k ≤ (pollFrom roomAt since timeout k).1 ∧
    (pollFrom roomAt since timeout k).2 =
      eventsPayload (roomAt (pollFrom roomAt since timeout k).1) since ∧
    (0 < (getNewEvents (roomAt (pollFrom roomAt since timeout k).1)
        since).length ∨
      timeout ≤ 200 * (pollFrom roomAt since timeout k).1) ∧
    (∀ j, k ≤ j → j < (pollFrom roomAt since timeout k).1 →
      (getNewEvents (roomAt j) since).length = 0 ∧ 200 * j < timeout) := by
  generalize hm : timeout - 200 * k = m
  induction m using Nat.strong_induction_on generalizing k with
  | _ m ih =>
    rw [pollFrom]
    by_cases hcond :
        0 < (getNewEvents (roomAt k) since).length ∨ timeout ≤ 200 * k
    · rw [if_pos hcond]
      refine ⟨Nat.le_refl k, rfl, hcond, ?_⟩
      intro j hkj hjk
      omega
    · rw [if_neg hcond]
      push_neg at hcond
      obtain ⟨hlen, hdead⟩ := hcond
      have hrec := ih (timeout - 200 * (k + 1)) (by omega) (k + 1) rfl
      obtain ⟨h1, h2, h3, h4⟩ := hrec
      refine ⟨by omega, h2, h3, ?_⟩
      intro j hkj hjk
      rcases Nat.eq_or_lt_of_le hkj with heq | hlt
      · subst heq
        exact ⟨by omega, by omega⟩
      · exact h4 j (by omega) hjk

/-- C6: the events route returns immediately (at the synchronous check,
tick 0) when qualifying events already exist or the clamped timeout is
0; otherwise the caller is blocked and the route answers at the first
200 ms re-check at which new events appeared or the elapsed time
reached `min(requestedTimeout, 55000)` — so it never waits past that
deadline by more than one re-check interval — returning the (possibly
empty) qualifying events together with the current state and
participants as of that tick. -/
theorem watcher_long_poll_semantics (roomAt : Nat → Room)
    (since timeoutRaw : Nat) :
    ((0 < (getNewEvents (roomAt 0) since).length ∨
        min timeoutRaw 55000 = 0) →
      eventsRoute roomAt since timeoutRaw =
        (0, eventsPayload (roomAt 0) since)) ∧
    ((getNewEvents (roomAt 0) since).length = 0 →
      min timeoutRaw 55000 ≠ 0 →
      1 ≤ (eventsRoute roomAt since timeoutRaw).1 ∧
      200 * ((eventsRoute roomAt since timeoutRaw).1 - 1) <
        min timeoutRaw 55000 ∧
      (eventsRoute roomAt since timeoutRaw).2 =
        eventsPayload (roomAt (eventsRoute roomAt since timeoutRaw).1)
          since ∧
      (0 < (getNewEvents (roomAt (eventsRoute roomAt since timeoutRaw).1)
          since).length ∨
        min timeoutRaw 55000 ≤
          200 * (eventsRoute roomAt since timeoutRaw).1) ∧
      (∀ j, 1 ≤ j → j < (eventsRoute roomAt since timeoutRaw).1 →
        (getNewEvents (roomAt j) since).length = 0)) := by
  constructor
  · intro h
    unfold eventsRoute
    rw [if_pos h]
  · intro hlen htimeout
    have hnot : ¬(0 < (getNewEvents (roomAt 0) since).length ∨
        min timeoutRaw 55000 = 0) := by
      push_neg
      omega
    unfold eventsRoute
    rw [if_neg hnot]
    obtain ⟨h1, h2, h3, h4⟩ :=
      pollFrom_spec roomAt since (min timeoutRaw 55000) 1
    refine ⟨h1, ?_, h2, h3, ?_⟩
    · rcases Nat.eq_or_lt_of_le h1 with heq | hlt
      · rw [← heq]
        omega
      · exact (h4 ((pollFrom roomAt since (min timeoutRaw 55000) 1).1 - 1)
          (by omega) (by omega)).2
    · intro j hj1 hjk
      exact (h4 j hj1 hjk).1

/-- Witness for C6: a watcher with no qualifying events and a clamped
timeout of 300 ms answers within two re-checks, and one with timeout 0
answers immediately. -/
theorem watcher_long_poll_semantics_witness :
    eventsRoute (fun _ => freshRoom "room1" "e") 0 0 =
      (0, eventsPayload (freshRoom "room1" "e") 0) ∧
    (1 ≤ (eventsRoute (fun _ => freshRoom "room1" "e") 0 300).1 ∧
      200 * ((eventsRoute (fun _ => freshRoom "room1" "e") 0 300).1 - 1) <
        min 300 55000 ∧
      (eventsRoute (fun _ => freshRoom "room1" "e") 0 300).2 =
        eventsPayload ((fun _ => freshRoom "room1" "e")
          ((eventsRoute (fun _ => freshRoom "room1" "e") 0 300).1)) 0 ∧
      (0 < (getNewEvents ((fun _ => freshRoom "room1" "e")
          ((eventsRoute (fun _ => freshRoom "room1" "e") 0 300).1))
          0).length ∨
        min 300 55000 ≤
          200 * (eventsRoute (fun _ => freshRoom "room1" "e") 0 300).1) ∧
      (∀ j, 1 ≤ j →
        j < (eventsRoute (fun _ => freshRoom "room1" "e") 0 300).1 →
        (getNewEvents ((fun _ => freshRoom "room1" "e") j) 0).length = 0)) :=
  ⟨(watcher_long_poll_semantics (fun _ => freshRoom "room1" "e") 0 0).1
      (Or.inr rfl),
   (watcher_long_poll_semantics (fun _ => freshRoom "room1" "e") 0 300).2
      rfl (by omega)⟩

/-! ### C5 — actor-identity allocation

The id `username-type-ordinal` is injective in (counter key, ordinal):
the ordinal part of the string is dash-free (decimal digits), so the
segment after the last dash determines it, and the counter key is the
rest.  This needs that decimal representation is injective and
dash-free, proved here against the core `Nat.toDigitsCore`. -/

theorem digitVal_digitChar : ∀ m : Nat, m < 10 →
    digitVal (Nat.digitChar m) = m := by decide

theorem digitChar_ne_dash : ∀ m : Nat, m < 10 →
    Nat.digitChar m ≠ '-' := by decide

theorem toDigitsCore_append : ∀ (fuel n : Nat) (ds : List Char),
    Nat.toDigitsCore 10 fuel n ds = Nat.toDigitsCore 10 fuel n [] ++ ds
  | 0, n, ds => by simp [Nat.toDigitsCore]
  | fuel + 1, n, ds => by
      simp only [Nat.toDigitsCore]
      by_cases h : n / 10 = 0
      · simp [h]
      · simp only [h, if_false]
        rw [toDigitsCore_append fuel (n / 10)
            (Nat.digitChar (n % 10) :: ds),
          toDigitsCore_append fuel (n / 10) [Nat.digitChar (n % 10)]]
        simp

theorem mem_toDigitsCore_ne_dash : ∀ (fuel n : Nat) (ds : List Char),
    (∀ c ∈ ds, c ≠ '-') → ∀ c ∈ Nat.toDigitsCore 10 fuel n ds, c ≠ '-'
  | 0, n, ds => by
      intro hds
      simpa [Nat.toDigitsCore] using hds
  | fuel + 1, n, ds => by
      intro hds c hc
      simp only [Nat.toDigitsCore] at hc
      by_cases h : n / 10 = 0
      · rw [if_pos h] at hc
        rcases List.mem_cons.mp hc with rfl | hmem
        · exact digitChar_ne_dash (n % 10) (Nat.mod_lt n (by omega))
        · exact hds c hmem
      · rw [if_neg h] at hc
        refine mem_toDigitsCore_ne_dash fuel (n / 10) _ ?_ c hc
        intro c' hc'
        rcases List.mem_cons.mp hc' with rfl | hmem
        · exact digitChar_ne_dash (n % 10) (Nat.mod_lt n (by omega))
        · exact hds c' hmem

theorem parseDigits_append (cs : List Char) (c : Char) :
    parseDigits (cs ++ [c]) = parseDigits cs * 10 + digitVal c := by
  simp [parseDigits, List.foldl_append]

theorem parseDigits_toDigitsCore : ∀ (fuel n : Nat), n < 10 ^ fuel →
    parseDigits (Nat.toDigitsCore 10 fuel n []) = n
  | 0, n => by
      intro h
      have : n = 0 := by simpa using Nat.lt_one_iff.mp h
      subst this
      simp [Nat.toDigitsCore, parseDigits]
  | fuel + 1, n => by
      intro h
      simp only [Nat.toDigitsCore]
      by_cases h0 : n / 10 = 0
      · rw [if_pos h0]
        have hd := digitVal_digitChar (n % 10) (Nat.mod_lt n (by omega))
        simp [parseDigits, hd]
        omega
      · rw [if_neg h0]
        rw [toDigitsCore_append fuel (n / 10) [Nat.digitChar (n % 10)]]
        rw [parseDigits_append]
        have hpow : (10 : Nat) ^ (fuel + 1) = 10 ^ fuel * 10 :=
          pow_succ 10 fuel
        have hdiv : n / 10 < 10 ^ fuel := by omega
        rw [parseDigits_toDigitsCore fuel (n / 10) hdiv]
        rw [digitVal_digitChar (n % 10) (Nat.mod_lt n (by omega))]
        omega

theorem toDigits_inj (m n : Nat)
    (h : Nat.toDigits 10 m = Nat.toDigits 10 n) : m = n := by
  have hm : parseDigits (Nat.toDigitsCore 10 (m + 1) m []) = m :=
    parseDigits_toDigitsCore (m + 1) m
      (lt_of_lt_of_le (Nat.lt_pow_self (by norm_num) m)
        (Nat.pow_le_pow_right (by norm_num) (Nat.le_succ m)))
  have hn : parseDigits (Nat.toDigitsCore 10 (n + 1) n []) = n :=
    parseDigits_toDigitsCore (n + 1) n
      (lt_of_lt_of_le (Nat.lt_pow_self (by norm_num) n)
        (Nat.pow_le_pow_right (by norm_num) (Nat.le_succ n)))
  unfold Nat.toDigits at h
  rw [h] at hm
  rw [hn] at hm
  exact hm.symm

theorem repr_inj (m n : Nat) (h : Nat.repr m = Nat.repr n) : m = n :=
  toDigits_inj m n (congrArg String.data h)

theorem repr_ne_dash (n : Nat) : ∀ c ∈ (Nat.repr n).data, c ≠ '-' :=
  mem_toDigitsCore_ne_dash (n + 1) n [] (by intro c hc; simp at hc)

theorem dashfree_cancel : ∀ (xs ys u v : List Char), '-' ∉ xs → '-' ∉ ys →
    xs ++ '-' :: u = ys ++ '-' :: v → xs = ys ∧ u = v
  | [], [], u, v => by
      intro _ _ h
      simp only [List.nil_append] at h
      injection h with h1 h2
      exact ⟨rfl, h2⟩
  | [], y :: ys, u, v => by
      intro _ hys h
      simp only [List.nil_append, List.cons_append] at h
      injection h with h1 h2
      exact absurd (h1 ▸ List.mem_cons_self y ys) hys
  | x :: xs, [], u, v => by
      intro hxs _ h
      simp only [List.nil_append, List.cons_append] at h
      injection h with h1 h2
      exact absurd (h1 ▸ List.mem_cons_self x xs) hxs
  | x :: xs, y :: ys, u, v => by
      intro hxs hys h
      simp only [List.cons_append] at h
      injection h with h1 h2
      obtain ⟨hxy, huv⟩ := dashfree_cancel xs ys u v
        (fun hm => hxs (List.mem_cons_of_mem x hm))
        (fun hm => hys (List.mem_cons_of_mem y hm)) h2
      exact ⟨by rw [h1, hxy], huv⟩

theorem encodeId_inj (p q : String) (m n : Nat)
    (h : encodeId p m = encodeId q n) : p = q ∧ m = n := by
  have hd : p.data ++ '-' :: (Nat.repr m).data =
      q.data ++ '-' :: (Nat.repr n).data := by
    have hdata := congrArg String.data h
    simpa [encodeId, String.data_append] using hdata
  have hrev : (Nat.repr m).data.reverse ++ '-' :: p.data.reverse =
      (Nat.repr n).data.reverse ++ '-' :: q.data.reverse := by
    have hr := congrArg List.reverse hd
    simpa [List.reverse_append] using hr
  have hnd1 : '-' ∉ (Nat.repr m).data.reverse := fun hm =>
    repr_ne_dash m '-' (List.mem_reverse.mp hm) rfl
  have hnd2 : '-' ∉ (Nat.repr n).data.reverse := fun hm =>
    repr_ne_dash n '-' (List.mem_reverse.mp hm) rfl
  obtain ⟨h1, h2⟩ := dashfree_cancel _ _ _ _ hnd1 hnd2 hrev
  have hmn : Nat.repr m = Nat.repr n := String.ext (by
    have hr := congrArg List.reverse h1
    simpa using hr)
  have hpq : p = q := String.ext (by
    have hr := congrArg List.reverse h2
    simpa using hr)
  exact ⟨hpq, repr_inj m n hmn⟩

theorem applyRoomOp_counters (room : Room) (op : RoomOp) :
    (applyRoomOp room op).1.actorCounters =
      (match opPfx op with
       | none => room.actorCounters
       | some p => jsMapSet room.actorCounters p
           ((jsMapGet room.actorCounters p).getD 0 + 1)) := by
  cases op <;> rfl

theorem applyRoomOp_ids (room : Room) (op : RoomOp) :
    (applyRoomOp room op).2 =
      (match opPfx op with
       | none => ([] : List String)
       | some p =>
           [encodeId p ((jsMapGet room.actorCounters p).getD 0 + 1)]) := by
  cases op <;> rfl

theorem runRoomOps_ids : ∀ (ops : List RoomOp) (room : Room),
    (runRoomOps room ops).2 =
      (allocTrace room.actorCounters ops).map
        (fun pn => encodeId pn.1 pn.2)
  | [], room => rfl
  | op :: rest, room => by
      simp only [runRoomOps]
      rw [runRoomOps_ids rest (applyRoomOp room op).1]
      rw [applyRoomOp_ids room op, applyRoomOp_counters room op]
      cases hp : opPfx op with
      | none => simp [allocTrace, hp]
      | some p => simp [allocTrace, hp]

theorem ordsFor_cons_self (p : String) (n : Nat)
    (tr : List (String × Nat)) :
    ordsFor ((p, n) :: tr) p = n :: ordsFor tr p := by
  simp [ordsFor]

theorem ordsFor_cons_ne (q p : String) (n : Nat)
    (tr : List (String × Nat)) (h : q ≠ p) :
    ordsFor ((q, n) :: tr) p = ordsFor tr p := by
  simp [ordsFor, h]

theorem ordsFor_allocTrace : ∀ (ops : List RoomOp)
    (counters : List (String × Nat)) (p : String),
    ordsFor (allocTrace counters ops) p =
      List.range' ((jsMapGet counters p).getD 0 + 1)
        (ordsFor (allocTrace counters ops) p).length
  | [], counters, p => by simp [allocTrace, ordsFor]
  | op :: rest, counters, p => by
      cases hp : opPfx op with
      | none =>
          simp only [allocTrace, hp]
          exact ordsFor_allocTrace rest counters p
      | some q =>
          simp only [allocTrace, hp]
          by_cases hqp : q = p
          · subst hqp
            rw [ordsFor_cons_self]
            have ih := ordsFor_allocTrace rest
              (jsMapSet counters q ((jsMapGet counters q).getD 0 + 1)) q
            rw [jsMapGet_set_self] at ih
            rw [ih]
            simp [List.range', List.length_range']
          · rw [ordsFor_cons_ne q p _ _ hqp]
            have ih := ordsFor_allocTrace rest
              (jsMapSet counters q ((jsMapGet counters q).getD 0 + 1)) p
            rw [jsMapGet_set_ne _ _ _ _ (fun hc => hqp hc.symm)] at ih
            exact ih

theorem trace_nodup : ∀ tr : List (String × Nat),
    (∀ p, (ordsFor tr p).Nodup) → tr.Nodup
  | [], _ => List.nodup_nil
  | (p, n) :: tr, h => by
      have hp := h p
      rw [ordsFor_cons_self] at hp
      rcases List.nodup_cons.mp hp with ⟨hnot, htl⟩
      refine List.nodup_cons.mpr ⟨?_, ?_⟩
      · intro hmem
        apply hnot
        have hfil : (p, n) ∈ tr.filter (fun pn => pn.1 = p) := by
          rw [List.mem_filter]
          exact ⟨hmem, by simp⟩
        simpa [ordsFor] using List.mem_map_of_mem (fun pn => pn.2) hfil
      · apply trace_nodup tr
        intro q
        by_cases hq : q = p
        · subst hq
          exact htl
        · have hoq := h q
          rwa [ordsFor_cons_ne p q _ _ (fun hc => hq hc.symm)] at hoq

/-- C5: from a fresh room, whatever sequence of joins (pull or push
channel) and leaves is applied, the ids handed out are the counter-key
trace rendered as `key-ordinal`; for every (username, kind) counter key
the ordinals are exactly 1, 2, 3, … in allocation order (starting at 1,
strictly increasing, never reused — leaves never touch the counters);
and all allocated ids are pairwise distinct for the room lifetime.  In
particular two joins of `sam`/human around a leave give `sam-human-1`
then `sam-human-2`. -/
theorem actorIdentity_fresh_monotonic :
    (∀ (rid eid : String) (ops : List RoomOp),
        (runRoomOps (freshRoom rid eid) ops).2 =
          (allocTrace [] ops).map (fun pn => encodeId pn.1 pn.2) ∧
        (∀ p, ordsFor (allocTrace [] ops) p =
          List.range' 1 (ordsFor (allocTrace [] ops) p).length) ∧
        (runRoomOps (freshRoom rid eid) ops).2.Nodup) ∧
    (runRoomOps (freshRoom "room1" "e")
        [.joinHttp (some "sam") (some .human), .leave "sam-human-1",
         .joinHttp (some "sam") (some .human)]).2 =
      ["sam-human-1", "sam-human-2"] := by
  constructor
  · intro rid eid ops
    have hids : (runRoomOps (freshRoom rid eid) ops).2 =
        (allocTrace [] ops).map (fun pn => encodeId pn.1 pn.2) :=
      runRoomOps_ids ops (freshRoom rid eid)
    have hord : ∀ p, ordsFor (allocTrace [] ops) p =
        List.range' 1 (ordsFor (allocTrace [] ops) p).length := by
      intro p
      have ho := ordsFor_allocTrace ops [] p
      simpa [jsMapGet] using ho
    refine ⟨hids, hord, ?_⟩
    rw [hids]
    apply List.Nodup.map
    · intro a b hab
      obtain ⟨h1, h2⟩ := encodeId_inj a.1 b.1 a.2 b.2 hab
      exact Prod.ext h1 h2
    · apply trace_nodup
      intro p
      rw [hord p]
      exact List.nodup_range' _ _
  · rfl

end Vibe
